import Mathlib

/-
Verification of the shmem-ring example server
(src/examples/shmem_ring/server.rs).

The server sums all f64 values arriving through per-client shared-memory
ring buffers and periodically broadcasts the aggregate over D-Bus.

Modelling choices:
* The shared aggregate `sum: Arc<Mutex<f64>>` is accessed only inside
  mutex-guarded critical sections: a session thread adds one batch sum
  per `receive_raw` callback, and the main loop performs its whole
  test/emit/reset block while holding the guard.  Concurrency is
  therefore modelled as an arbitrary interleaving of atomic events
  (`Event.drain`, `Event.drainFail`, `Event.flush`).
* The numeric carrier of the aggregate is a parameter (`NumModel`); it
  is instantiated with ℚ (exact arithmetic, faithful to f64 on inputs
  where f64 addition is exact, and matching the spec's bracketing of
  floating-point rounding order) and with `F64`, a model of IEEE-754
  binary64 that tracks NaN, signed infinities and signed zeros exactly
  and treats finite arithmetic as exact rational arithmetic.
* The external `shmem_ipc::sharedring::Receiver` is modelled from the
  spec where its behaviour matters (capacity fixed at creation, three
  OS resources, fallible creation/cloning, fallible wait and raw read).
-/

namespace ShmemRing

/-- The operations on the numeric carrier of the aggregate that the
server code uses: the literal `0.0`, `+=`, and the `!=`-complement `==`
comparison used by `if *sum != 0.0`. -/
structure NumModel (F : Type) where
  zero : F
  add : F → F → F
  beq : F → F → Bool

/-- `let mut s = 0.0f64; for i in 0..count { s += *ptr.add(i) }`:
the local batch sum, a left fold starting from zero. -/
def batchSum {F : Type} (M : NumModel F) (b : List F) : F :=
  b.foldl M.add M.zero

/-- The mutex-guarded shared state: the single `f64` accumulator. -/
structure ServerState (F : Type) where
  sum : F
deriving DecidableEq, Repr

/-- Atomic events on the shared state.  `drain sid batch` is one
successful session-loop iteration (wait, raw read of `batch`, locked
add of the batch sum); `drainFail sid` is a session-loop iteration
whose wait or read errored (the `unwrap` panics and the thread dies
having touched nothing); `flush` is one main-loop body after
`c.process` returns. -/
inductive Event (F : Type) where
  | drain (sid : Nat) (batch : List F)
  | drainFail (sid : Nat)
  | flush
deriving DecidableEq, Repr

/-- One atomic step: the new shared state and the list of `Sum`
broadcasts it emits (empty or a singleton). -/
def stepEvent {F : Type} (M : NumModel F) (st : ServerState F) :
    Event F → ServerState F × List F
  | Event.drain _ b => (⟨M.add st.sum (batchSum M b)⟩, [])
  | Event.drainFail _ => (st, [])
  | Event.flush =>
      if M.beq st.sum M.zero then (st, [])
      else (⟨M.zero⟩, [st.sum])

/-- Run a trace of events, collecting all emitted broadcasts in order. -/
def run {F : Type} (M : NumModel F) :
    ServerState F → List (Event F) → ServerState F × List F
  | st, [] => (st, [])
  | st, e :: es =>
      ((run M (stepEvent M st e).1 es).1,
        (stepEvent M st e).2 ++ (run M (stepEvent M st e).1 es).2)

/-- Exact-arithmetic instantiation: ℚ models f64 on traces where f64
addition is exact; the spec leaves rounding order unspecified. -/
def ratModel : NumModel ℚ :=
  { zero := 0, add := fun a b => a + b, beq := fun a b => decide (a = b) }

/-- IEEE-754 binary64 values at the granularity the server observes:
NaN, signed infinities, signed zeros (`zero true` is `-0.0`), and
finite non-zero values carried exactly as rationals. -/
inductive F64 where
  | nan
  | inf (neg : Bool)
  | zero (neg : Bool)
  | num (q : ℚ)
deriving DecidableEq, Repr

/-- IEEE-754 addition on `F64` (round-to-nearest; finite arithmetic
idealised as exact, which is faithful on all inputs used here):
NaN absorbs, opposite infinities give NaN, `x + (-x) = +0.0`,
`-0.0 + -0.0 = -0.0`. -/
def F64.add : F64 → F64 → F64
  | F64.nan, _ => F64.nan
  | _, F64.nan => F64.nan
  | F64.inf s, F64.inf t => if s = t then F64.inf s else F64.nan
  | F64.inf s, _ => F64.inf s
  | _, F64.inf t => F64.inf t
  | F64.zero s, F64.zero t => F64.zero (s && t)
  | F64.zero _, F64.num q => F64.num q
  | F64.num q, F64.zero _ => F64.num q
  | F64.num a, F64.num b =>
      if a + b = 0 then F64.zero false else F64.num (a + b)

/-- IEEE-754 `==` on `F64`: NaN compares unequal to everything
(including itself), `-0.0 == 0.0` holds. -/
def F64.beq : F64 → F64 → Bool
  | F64.nan, _ => false
  | _, F64.nan => false
  | F64.inf s, F64.inf t => s = t
  | F64.inf _, _ => false
  | _, F64.inf _ => false
  | F64.zero _, F64.zero _ => true
  | F64.zero _, F64.num q => decide (q = 0)
  | F64.num q, F64.zero _ => decide (q = 0)
  | F64.num a, F64.num b => decide (a = b)

/-- NaN or an infinity. -/
def F64.nonFinite : F64 → Bool
  | F64.nan => true
  | F64.inf _ => true
  | _ => false

/-- The f64 instantiation.  The aggregate starts at `f64::default()`
(+0.0) and `*sum = 0.0` resets it to +0.0. -/
def f64Model : NumModel F64 :=
  { zero := F64.zero false, add := F64.add, beq := F64.beq }

/-! ## Provisioning (`State::add_receiver` and the `Setup` handler) -/

/-- `const CAPACITY: usize = 500000;` -/
def CAPACITY : Nat := 500000

/-- Modelled from the spec: the external Ring Transport Handle
(`shmem_ipc::sharedring::Receiver`) — its element capacity is fixed at
creation to the requested value, and it exposes three OS resources
(memory region, empty signal, full signal), modelled as opaque handle
numbers. -/
structure Receiver where
  capacity : Nat
  memfd : Nat
  emptySignal : Nat
  fullSignal : Nat
deriving DecidableEq, Repr

/-- The outcomes of the external library calls made during one
`add_receiver` invocation: whether `Receiver::new` succeeds (and with
which three resources), and whether each of the three `try_clone`
calls succeeds. -/
structure ProvisionEnv where
  ringHandles : Option (Nat × Nat × Nat)
  cloneMemOk : Bool
  cloneEmptyOk : Bool
  cloneFullOk : Bool
deriving DecidableEq, Repr

/-- Modelled from the spec: `Receiver::new(cap)` — on success the new
handle's capacity is exactly the requested `cap`. -/
def Receiver.create (cap : Nat) (env : ProvisionEnv) : Option Receiver :=
  env.ringHandles.map fun h => ⟨cap, h.1, h.2.1, h.2.2⟩

/-- Modelled from the spec: `File::try_clone` — a duplicate of the
same underlying resource, or a failure. -/
def tryClone (ok : Bool) (h : Nat) : Option Nat :=
  if ok then some h else none

/-- The success payload of `add_receiver`:
`(CAPACITY as u64, m, e, f)`. -/
structure SetupOk where
  capacity : Nat
  memfd : Nat
  emptySignal : Nat
  fullSignal : Nat
deriving DecidableEq, Repr

/-- `State::add_receiver`, with the thread spawn made explicit: the
`?` operator returns early on the first failure, and `thread::spawn`
runs only after the receiver and all three clones succeeded.  The
second component counts the consumption threads spawned by this call. -/
def addReceiver (env : ProvisionEnv) : Except Unit SetupOk × Nat :=
  match Receiver.create CAPACITY env with
  | none => (Except.error (), 0)
  | some r =>
    match tryClone env.cloneMemOk r.memfd with
    | none => (Except.error (), 0)
    | some m =>
      match tryClone env.cloneEmptyOk r.emptySignal with
      | none => (Except.error (), 0)
      | some e =>
        match tryClone env.cloneFullOk r.fullSignal with
        | none => (Except.error (), 0)
        | some f => (Except.ok ⟨CAPACITY, m, e, f⟩, 1)

def isOkResult {ε α : Type} : Except ε α → Bool
  | Except.ok _ => true
  | Except.error _ => false

/-- The `Setup` method handler: `state.add_receiver().map_err(|e| ...
MethodErr::failed("failed to setup shared memory"))`. -/
def setupHandler (env : ProvisionEnv) : Except String SetupOk :=
  match (addReceiver env).1 with
  | Except.ok res => Except.ok res
  | Except.error _ => Except.error ("failed to setup shared memory")

/-! ## The session loop body and its lock discipline -/

/-- One session-loop iteration, with the external outcomes explicit:
`waitOk` is whether `block_until_readable` succeeds, `readResult` is
`receive_raw`'s outcome (`some batch`: the callback ran on the full
batch; `none`: the read failed before yielding data).  Returns the new
aggregate and whether the thread is still alive (`unwrap` panics kill
only this thread). -/
def sessionIter {F : Type} (M : NumModel F) (waitOk : Bool)
    (readResult : Option (List F)) (agg : F) : F × Bool :=
  if waitOk then
    match readResult with
    | some batch => (M.add agg (batchSum M batch), true)
    | none => (agg, false)
  else (agg, false)

/-- The primitive actions of one session-loop iteration, in program
order: `readElem` is one `s += *ptr.add(i)` (read and local add
fused), `addShared` is `*sum.lock().unwrap() += s`, `reportConsumed`
is returning `count` to `receive_raw`. -/
inductive Act where
  | waitReadable
  | readElem
  | lockAcquire
  | addShared
  | lockRelease
  | reportConsumed
deriving DecidableEq, Repr

/-- The action sequence of one iteration with a batch of `count`
elements, as written in the source: block, read/sum each element,
then lock, add, unlock (the guard is a temporary dropped at the end of
the statement), then report the consumed count. -/
def sessionActs (count : Nat) : List Act :=
  Act.waitReadable ::
    (List.replicate count Act.readElem ++
      [Act.lockAcquire, Act.addShared, Act.lockRelease, Act.reportConsumed])

/-- Whether the aggregate's mutex is held after executing one action,
given whether it was held before. -/
def lockAfter (held : Bool) : Act → Bool
  | Act.lockAcquire => true
  | Act.lockRelease => false
  | _ => held

/-- Pair each action with whether the mutex is held while it
executes. -/
def annotate (held : Bool) : List Act → List (Act × Bool)
  | [] => []
  | a :: as => (a, lockAfter held a) :: annotate (lockAfter held a) as

/-- An event that models a failed wait/read. -/
def Event.isFail {F : Type} : Event F → Bool
  | Event.drainFail _ => true
  | _ => false

/-- The f64 values drained by the `drain` events of a trace, summed
exactly. -/
def drainedTotal : List (Event ℚ) → ℚ
  | [] => 0
  | Event.drain _ b :: es => b.sum + drainedTotal es
  | _ :: es => drainedTotal es

/-! ## Helper lemmas -/

lemma foldl_add_rat (l : List ℚ) (a : ℚ) :
    l.foldl (fun x y => x + y) a = a + l.sum := by
  induction l generalizing a with
  | nil => simp
  | cons x xs ih => simp [List.foldl, ih, add_assoc]

lemma batchSum_rat (l : List ℚ) : batchSum ratModel l = l.sum := by
  simp [batchSum, ratModel, foldl_add_rat]

lemma run_cons {F : Type} (M : NumModel F) (st : ServerState F) (e : Event F)
    (es : List (Event F)) :
    run M st (e :: es)
      = ((run M (stepEvent M st e).1 es).1,
          (stepEvent M st e).2 ++ (run M (stepEvent M st e).1 es).2) := rfl

lemma stepEvent_drain_rat (a : ℚ) (sid : Nat) (b : List ℚ) :
    stepEvent ratModel ⟨a⟩ (Event.drain sid b) = (⟨a + b.sum⟩, []) := by
  simp only [stepEvent]
  rw [batchSum_rat]
  rfl

lemma stepEvent_flush_rat (a : ℚ) :
    stepEvent ratModel ⟨a⟩ Event.flush
      = if a = 0 then (⟨a⟩, []) else (⟨0⟩, [a]) := by
  by_cases h : a = 0 <;> simp [stepEvent, ratModel, h]

lemma run_drains (batches : List (Nat × List ℚ)) (a : ℚ)
    (rest : List (Event ℚ)) :
    run ratModel ⟨a⟩ ((batches.map fun p => Event.drain p.1 p.2) ++ rest)
      = run ratModel ⟨a + ((batches.map Prod.snd).flatten).sum⟩ rest := by
  induction batches generalizing a with
  | nil => simp
  | cons p ps ih =>
    rw [List.map_cons, List.cons_append, run_cons, stepEvent_drain_rat]
    simp only [List.nil_append]
    rw [ih (a + p.2.sum), List.map_cons, List.flatten_cons, List.sum_append,
      ← add_assoc]

lemma run_conservation (evs : List (Event ℚ)) (a : ℚ) :
    ((run ratModel ⟨a⟩ evs).2).sum + (run ratModel ⟨a⟩ evs).1.sum
      = a + drainedTotal evs := by
  induction evs generalizing a with
  | nil => simp [run, drainedTotal]
  | cons e es ih =>
    cases e with
    | drain sid b =>
      have h := ih (a + b.sum)
      rw [run_cons, stepEvent_drain_rat]
      simp only [List.nil_append, drainedTotal]
      linarith
    | drainFail sid =>
      have h := ih a
      rw [run_cons]
      simp only [stepEvent, List.nil_append, drainedTotal]
      linarith
    | flush =>
      rw [run_cons, stepEvent_flush_rat]
      by_cases hz : a = 0
      · rw [if_pos hz]
        have h := ih a
        simp only [List.nil_append, drainedTotal]
        linarith
      · rw [if_neg hz]
        have h := ih 0
        simp only [List.singleton_append, List.sum_cons, drainedTotal]
        linarith

lemma run_drop_failures {F : Type} (M : NumModel F) (evs : List (Event F))
    (st : ServerState F) :
    run M st (evs.filter fun e => !(Event.isFail e)) = run M st evs := by
  induction evs generalizing st with
  | nil => rfl
  | cons e es ih =>
    cases e with
    | drain sid b =>
      have hf : (Event.drain sid b :: es).filter (fun e => !(Event.isFail e))
          = Event.drain sid b :: es.filter (fun e => !(Event.isFail e)) := by
        simp [List.filter_cons, Event.isFail]
      rw [hf, run_cons, run_cons, ih]
    | drainFail sid =>
      have hf : (Event.drainFail (F := F) sid :: es).filter
            (fun e => !(Event.isFail e))
          = es.filter (fun e => !(Event.isFail e)) := by
        simp [List.filter_cons, Event.isFail]
      rw [hf, ih, run_cons]
      simp [stepEvent]
    | flush =>
      have hf : (Event.flush (F := F) :: es).filter (fun e => !(Event.isFail e))
          = Event.flush :: es.filter (fun e => !(Event.isFail e)) := by
        simp [List.filter_cons, Event.isFail]
      rw [hf, run_cons, run_cons, ih]

lemma annotate_replicate (n : Nat) (rest : List Act) :
    annotate false (List.replicate n Act.readElem ++ rest)
      = List.replicate n (Act.readElem, false) ++ annotate false rest := by
  induction n with
  | zero => simp
  | succ k ih => simp [List.replicate_succ, annotate, lockAfter, ih]

lemma F64.add_nonFinite_left (a b : F64) (h : a.nonFinite = true) :
    (F64.add a b).nonFinite = true := by
  cases a with
  | nan => cases b <;> simp [F64.add, F64.nonFinite]
  | inf s =>
    cases b with
    | nan => simp [F64.add, F64.nonFinite]
    | inf t => by_cases hst : s = t <;> simp [F64.add, F64.nonFinite, hst]
    | zero t => simp [F64.add, F64.nonFinite]
    | num q => simp [F64.add, F64.nonFinite]
  | zero s => simp [F64.nonFinite] at h
  | num q => simp [F64.nonFinite] at h

lemma F64.add_nonFinite_right (a b : F64) (h : b.nonFinite = true) :
    (F64.add a b).nonFinite = true := by
  cases b with
  | nan => cases a <;> simp [F64.add, F64.nonFinite]
  | inf t =>
    cases a with
    | nan => simp [F64.add, F64.nonFinite]
    | inf s => by_cases hst : s = t <;> simp [F64.add, F64.nonFinite, hst]
    | zero s => simp [F64.add, F64.nonFinite]
    | num q => simp [F64.add, F64.nonFinite]
  | zero t => simp [F64.nonFinite] at h
  | num q => simp [F64.nonFinite] at h

lemma F64.foldl_preserve (l : List F64) (z : F64) (h : z.nonFinite = true) :
    (l.foldl F64.add z).nonFinite = true := by
  induction l generalizing z with
  | nil => simpa using h
  | cons y ys ih => exact ih (F64.add z y) (F64.add_nonFinite_left z y h)

lemma F64.foldl_nonFinite (l : List F64) (z x : F64) (hx : x ∈ l)
    (h : x.nonFinite = true) : (l.foldl F64.add z).nonFinite = true := by
  induction l generalizing z with
  | nil => cases hx
  | cons y ys ih =>
    simp only [List.foldl_cons]
    rcases List.mem_cons.mp hx with heq | hmem
    · subst heq
      exact F64.foldl_preserve ys (F64.add z x) (F64.add_nonFinite_right z x h)
    · exact ih (F64.add z y) hmem

lemma F64.nonFinite_beq_zero (v : F64) (h : v.nonFinite = true) :
    F64.beq v (F64.zero false) = false := by
  cases v <;> simp_all [F64.beq, F64.nonFinite]

lemma flush_emits {F : Type} (M : NumModel F) (st : ServerState F)
    (h : M.beq st.sum M.zero = false) :
    stepEvent M st Event.flush = (⟨M.zero⟩, [st.sum]) := by
  simp [stepEvent, h]

lemma flush_skips {F : Type} (M : NumModel F) (st : ServerState F)
    (h : M.beq st.sum M.zero = true) :
    stepEvent M st Event.flush = (st, []) := by
  simp [stepEvent, h]

lemma addReceiver_threads (env : ProvisionEnv) :
    (addReceiver env).2 = (if isOkResult (addReceiver env).1 then 1 else 0) := by
  obtain ⟨rh, cm, ce, cf⟩ := env
  cases rh with
  | none => rfl
  | some t => cases cm <;> cases ce <;> cases cf <;> rfl

/-! ## Claims -/

/-- C1: For every sequence of batches drained by the client sessions
after the last reset and before a given flush, the Sum broadcast
emitted at that flush carries exactly the sum of all elements of all
those batches across all sessions, each element included exactly once
(the exact model is order-independent, matching the spec's bracketing
of floating-point addition order); concretely, a single session
draining the one batch [1.0, 2.5, -0.5] makes the next flush emit
exactly one Sum broadcast with payload 3.0 and the following flush
(no new writes) emit nothing. -/
theorem c1_flush_broadcast_total_sum :
    (∀ batches : List (Nat × List ℚ),
      run ratModel ⟨0⟩ ((batches.map fun p => Event.drain p.1 p.2)
          ++ [Event.flush])
        = (⟨0⟩, if ((batches.map Prod.snd).flatten).sum = 0 then []
            else [((batches.map Prod.snd).flatten).sum]))
    ∧ run f64Model ⟨F64.zero false⟩
        [Event.drain 0 [F64.num 1, F64.num (5 / 2), F64.num (-(1 / 2))],
          Event.flush, Event.flush]
        = (⟨F64.zero false⟩, [F64.num 3]) := by
  constructor
  · intro batches
    rw [run_drains, zero_add, run_cons, stepEvent_flush_rat]
    by_cases hz : ((batches.map Prod.snd).flatten).sum = 0
    · rw [if_pos hz, if_pos hz, hz]
      rfl
    · rw [if_neg hz, if_neg hz]
      rfl
  · norm_num [run, stepEvent, f64Model, batchSum, F64.add, F64.beq]

/-- C2: No element is counted in two different flushes and no
increment is lost between a flush's read and its reset: over every
interleaving of atomic critical sections (each drain add and each
whole read-test-emit-reset flush block runs under the one mutex), the
sum of all emitted broadcasts plus the residual aggregate equals the
starting aggregate plus every drained element counted exactly once;
concretely, a drained batch is emitted by exactly one flush and a
second flush does not repeat it. -/
theorem c2_exactly_once_conservation :
    (∀ (evs : List (Event ℚ)) (a : ℚ),
      ((run ratModel ⟨a⟩ evs).2).sum + (run ratModel ⟨a⟩ evs).1.sum
        = a + drainedTotal evs)
    ∧ run ratModel ⟨0⟩ [Event.drain 0 [5], Event.flush, Event.flush]
        = (⟨0⟩, [5]) := by
  refine ⟨fun evs a => run_conservation evs a, ?_⟩
  norm_num [run, stepEvent, ratModel, batchSum]

/-- C3: On every Flush step, for any numeric carrier: if the aggregate
compares non-zero it is reset to the model's zero and emitted as
exactly one broadcast carrying its value; if it compares zero, the
state is unchanged and nothing is emitted. -/
theorem c3_flush_emit_or_skip (F : Type) (M : NumModel F)
    (st : ServerState F) :
    (M.beq st.sum M.zero = false →
      stepEvent M st Event.flush = (⟨M.zero⟩, [st.sum]))
    ∧ (M.beq st.sum M.zero = true →
      stepEvent M st Event.flush = (st, [])) := by
  constructor <;> intro h <;> simp [stepEvent, h]

theorem c3_flush_emit_or_skip_witness :
    stepEvent f64Model ⟨F64.num 3⟩ Event.flush
      = (⟨F64.zero false⟩, [F64.num 3]) :=
  (c3_flush_emit_or_skip F64 f64Model ⟨F64.num 3⟩).1 (by norm_num [f64Model, F64.beq])

/-- C4: Every successful add_receiver call returns the fixed
configured capacity 500000 — the same capacity the freshly created
receiver was allocated with — together with that receiver's three OS
resource handles, and spawns its one thread. -/
theorem c4_setup_success_payload (env : ProvisionEnv) (res : SetupOk)
    (n : Nat) (h : addReceiver env = (Except.ok res, n)) :
    ∃ r : Receiver, Receiver.create CAPACITY env = some r
      ∧ r.capacity = 500000 ∧ res.capacity = 500000
      ∧ res.capacity = r.capacity ∧ res.memfd = r.memfd
      ∧ res.emptySignal = r.emptySignal ∧ res.fullSignal = r.fullSignal
      ∧ n = 1 := by
  obtain ⟨rh, cm, ce, cf⟩ := env
  cases rh with
  | none => simp [addReceiver, Receiver.create] at h
  | some t =>
    cases cm with
    | false => simp [addReceiver, Receiver.create, tryClone] at h
    | true =>
      cases ce with
      | false => simp [addReceiver, Receiver.create, tryClone] at h
      | true =>
        cases cf with
        | false => simp [addReceiver, Receiver.create, tryClone] at h
        | true =>
          simp [addReceiver, Receiver.create, tryClone] at h
          obtain ⟨hres, hn⟩ := h
          subst hres
          subst hn
          exact ⟨⟨CAPACITY, t.1, t.2.1, t.2.2⟩, rfl, rfl, rfl, rfl, rfl,
            rfl, rfl, rfl⟩

theorem c4_setup_success_payload_witness :
    ∃ r : Receiver,
      Receiver.create CAPACITY ⟨some (1, 2, 3), true, true, true⟩ = some r
      ∧ r.capacity = 500000
      ∧ (SetupOk.mk 500000 1 2 3).capacity = 500000
      ∧ (SetupOk.mk 500000 1 2 3).capacity = r.capacity
      ∧ (SetupOk.mk 500000 1 2 3).memfd = r.memfd
      ∧ (SetupOk.mk 500000 1 2 3).emptySignal = r.emptySignal
      ∧ (SetupOk.mk 500000 1 2 3).fullSignal = r.fullSignal
      ∧ (1 : Nat) = 1 :=
  c4_setup_success_payload ⟨some (1, 2, 3), true, true, true⟩
    ⟨500000, 1, 2, 3⟩ 1 rfl

/-- C5 counterexample: at a concrete failing environment, the Setup
handler's error message is the string "failed to setup shared
memory", which differs from the claimed "failed to set up shared
memory". -/
theorem c5_message_counterexample :
    setupHandler ⟨none, true, true, true⟩
        = Except.error ("failed to setup shared memory")
      ∧ ("failed to setup shared memory" : String)
        ≠ "failed to set up shared memory" := by
  exact ⟨rfl, by decide⟩

/-- C5 (amended): whenever add_receiver fails, Setup returns an
application-level error whose message is exactly "failed to setup
shared memory", and no consumption thread is spawned (the process
keeps serving: the handler merely returns the error). -/
theorem c5_failure_error_message (env : ProvisionEnv)
    (h : isOkResult (addReceiver env).1 = false) :
    setupHandler env = Except.error ("failed to setup shared memory")
      ∧ (addReceiver env).2 = 0 := by
  constructor
  · cases hres : (addReceiver env).1 with
    | ok v => rw [hres] at h; simp [isOkResult] at h
    | error v => simp [setupHandler, hres]
  · rw [addReceiver_threads, h]
    rfl

theorem c5_failure_error_message_witness :
    setupHandler ⟨none, true, true, true⟩
        = Except.error ("failed to setup shared memory")
      ∧ (addReceiver ⟨none, true, true, true⟩).2 = 0 :=
  c5_failure_error_message ⟨none, true, true, true⟩ rfl

/-- C6: provisioning is all-or-nothing: a call spawns exactly one
consumption thread when it succeeds and none when receiver creation
or any of the three handle duplications fails. -/
theorem c6_all_or_nothing (env : ProvisionEnv) :
    (addReceiver env).2
      = (if isOkResult (addReceiver env).1 then 1 else 0) :=
  addReceiver_threads env

/-- C7: an error from the blocking wait or the batched read kills only
that session's iteration: the aggregate is untouched (no partial batch
sum is added) and the thread reports dead; moreover interleaving any
number of failed-session events into any trace changes neither the
final shared state nor the emitted broadcasts. -/
theorem c7_session_failure_isolated :
    (∀ (F : Type) (M : NumModel F) (agg : F) (rr : Option (List F)),
      sessionIter M false rr agg = (agg, false))
    ∧ (∀ (F : Type) (M : NumModel F) (agg : F),
      sessionIter M true none agg = (agg, false))
    ∧ (∀ (F : Type) (M : NumModel F) (st : ServerState F)
        (evs : List (Event F)),
      run M st (evs.filter fun e => !(Event.isFail e)) = run M st evs) := by
  refine ⟨?_, ?_, ?_⟩
  · intro F M agg rr
    rfl
  · intro F M agg
    rfl
  · intro F M st evs
    exact run_drop_failures M evs st

/-- C8: in every session-loop iteration the elements are read and
summed before the lock is touched, the mutex is never held during the
blocking wait or during any element read, and it is held exactly for
the acquire-add span, released before the consumed count is
reported. -/
theorem c8_lock_only_around_add (count : Nat) :
    annotate false (sessionActs count)
      = (Act.waitReadable, false)
          :: (List.replicate count (Act.readElem, false)
            ++ [(Act.lockAcquire, true), (Act.addShared, true),
                (Act.lockRelease, false), (Act.reportConsumed, false)]) := by
  simp [sessionActs, annotate, lockAfter, annotate_replicate]

/-- C9: when the interval's contributions compare equal to 0.0 under
IEEE comparison (cancelling elements, or -0.0 which compares equal to
0.0), the flush emits nothing and leaves the state alone, and the
absorbed elements never appear in a later broadcast: after +10.0 and
-10.0 cancel, a later batch [7.0] is broadcast as 7.0 alone. -/
theorem c9_zero_sum_silently_absorbed :
    (∀ a : F64, F64.beq a (F64.zero false) = true →
      stepEvent f64Model ⟨a⟩ Event.flush = (⟨a⟩, []))
    ∧ run f64Model ⟨F64.zero false⟩
        [Event.drain 0 [F64.num 10, F64.num (-10)], Event.flush,
          Event.drain 0 [F64.num 7], Event.flush]
        = (⟨F64.zero false⟩, [F64.num 7])
    ∧ run f64Model ⟨F64.zero false⟩
        [Event.drain 0 [F64.zero true], Event.flush]
        = (⟨F64.zero false⟩, []) := by
  refine ⟨?_, ?_, ?_⟩
  · intro a h
    simp [stepEvent, f64Model, h]
  · norm_num [run, stepEvent, f64Model, batchSum, F64.add, F64.beq]
  · norm_num [run, stepEvent, f64Model, batchSum, F64.add, F64.beq]

theorem c9_zero_sum_silently_absorbed_witness :
    stepEvent f64Model ⟨F64.zero true⟩ Event.flush
      = (⟨F64.zero true⟩, []) :=
  c9_zero_sum_silently_absorbed.1 (F64.zero true) (by decide)

/-- C10: if any drained element is NaN or infinite, the aggregate
becomes NaN/infinite, the flush's non-zero test succeeds (NaN
compares unequal to 0.0), exactly one Sum broadcast carrying that
payload is emitted, and the aggregate is reset to +0.0. -/
theorem c10_nonfinite_propagates (a : F64) (batch : List F64) (x : F64)
    (hx : x ∈ batch) (h : x.nonFinite = true) :
    stepEvent f64Model ⟨a⟩ (Event.drain 0 batch)
        = (⟨F64.add a (batchSum f64Model batch)⟩, [])
    ∧ (F64.add a (batchSum f64Model batch)).nonFinite = true
    ∧ F64.beq (F64.add a (batchSum f64Model batch)) (F64.zero false) = false
    ∧ stepEvent f64Model ⟨F64.add a (batchSum f64Model batch)⟩ Event.flush
        = (⟨F64.zero false⟩, [F64.add a (batchSum f64Model batch)])
    ∧ F64.beq F64.nan (F64.zero false) = false := by
  have hb : (batchSum f64Model batch).nonFinite = true :=
    F64.foldl_nonFinite batch f64Model.zero x hx h
  have hnf : (F64.add a (batchSum f64Model batch)).nonFinite = true :=
    F64.add_nonFinite_right a (batchSum f64Model batch) hb
  refine ⟨rfl, hnf, F64.nonFinite_beq_zero _ hnf, ?_, rfl⟩
  exact flush_emits f64Model ⟨F64.add a (batchSum f64Model batch)⟩
    (F64.nonFinite_beq_zero _ hnf)

theorem c10_nonfinite_propagates_witness :
    stepEvent f64Model ⟨F64.zero false⟩ (Event.drain 0 [F64.nan])
        = (⟨F64.add (F64.zero false) (batchSum f64Model [F64.nan])⟩, [])
    ∧ (F64.add (F64.zero false) (batchSum f64Model [F64.nan])).nonFinite
        = true
    ∧ F64.beq (F64.add (F64.zero false) (batchSum f64Model [F64.nan]))
        (F64.zero false) = false
    ∧ stepEvent f64Model
        ⟨F64.add (F64.zero false) (batchSum f64Model [F64.nan])⟩ Event.flush
        = (⟨F64.zero false⟩,
            [F64.add (F64.zero false) (batchSum f64Model [F64.nan])])
    ∧ F64.beq F64.nan (F64.zero false) = false :=
  c10_nonfinite_propagates (F64.zero false) [F64.nan] F64.nan
    (by decide) rfl

end ShmemRing
